import Mathlib

/-!
Verification of the glTF exporter writer (GLTFWriter.ts and friends) of the
three-gltf-exporter-backend repository.  Byte buffers are represented as
`List Nat` (each entry one byte), numeric attribute data as `List ℚ`
(JS numbers; the claims proved here involve no float rounding, only
comparisons, copies and exact subtraction/division), and the writer's
mutable state as explicit state records threaded through the functions.
-/

/-! ## GLB constants (constants.ts) -/

def GLB_HEADER_BYTES : Nat := 12
def GLB_HEADER_MAGIC : Nat := 0x46546C67
def GLB_VERSION : Nat := 2
/-- Source `GLB_CHUNK_PREFIX_BYTES` in constants.ts (renamed here). -/
def GLB_CHUNK_HEAD_BYTES : Nat := 8
def GLB_CHUNK_TYPE_JSON : Nat := 0x4E4F534A
def GLB_CHUNK_TYPE_BIN : Nat := 0x004E4942

/-! ## Padding helpers (GLTFWriter.ts) -/

/-- Source `getPaddedBufferSize` (GLTFWriter.ts line 141): round a byte count up to
the next multiple of 4, `Math.ceil(bufferSize / 4) * 4`. -/
def getPaddedBufferSize (bufferSize : Nat) : Nat :=
  ((bufferSize + 3) / 4) * 4

/-- Source `getPaddedArrayBuffer` (GLTFWriter.ts line 154): pad a byte array to a
4-byte boundary.  The source allocates a zero-filled `Uint8Array` of the
padded size, copies the original bytes in, and overwrites the tail with
`paddingByte` when it is nonzero; the net result is the original bytes
followed by `paddingByte`s (a zero `paddingByte` leaves the zero fill). -/
def getPaddedArrayBuffer (arrayBuffer : List Nat) (paddingByte : Nat) : List Nat :=
  arrayBuffer ++
    List.replicate (getPaddedBufferSize arrayBuffer.length - arrayBuffer.length) paddingByte

/-- Little-endian bytes written by `DataView.setUint32(off, n, true)`. -/
def u32le (n : Nat) : List Nat :=
  [n % 256, n / 256 % 256, n / 65536 % 256, n / 16777216 % 256]

/-- Little-endian u32 read from a byte list, as `DataView.getUint32(off, true)`. -/
def readU32 (bytes : List Nat) (off : Nat) : Nat :=
  match bytes.drop off with
  | b0 :: b1 :: b2 :: b3 :: _ => b0 + 256 * b1 + 65536 * b2 + 16777216 * b3
  | _ => 0

/-- The GLB container assembly of the `options.binary === true` branch of
`GLTFWriter.write` (GLTFWriter.ts lines 318-356), as a function of the
serialized JSON bytes and the merged binary-buffer bytes.  The source's
`jsonChunkPrefix` / `binaryChunkPrefix` DataViews are `jsonChunkHead` /
`binaryChunkHead` here. -/
def writeGLB (jsonBytes binBytes : List Nat) : List Nat :=
  let binaryChunk := getPaddedArrayBuffer binBytes 0
  let binaryChunkHead := u32le binaryChunk.length ++ u32le GLB_CHUNK_TYPE_BIN
  let jsonChunk := getPaddedArrayBuffer jsonBytes 0x20
  let jsonChunkHead := u32le jsonChunk.length ++ u32le GLB_CHUNK_TYPE_JSON
  let totalByteLength := GLB_HEADER_BYTES
    + GLB_CHUNK_HEAD_BYTES + jsonChunk.length
    + GLB_CHUNK_HEAD_BYTES + binaryChunk.length
  let header := u32le GLB_HEADER_MAGIC ++ u32le GLB_VERSION ++ u32le totalByteLength
  header ++ jsonChunkHead ++ jsonChunk ++ binaryChunkHead ++ binaryChunk

/-- The GLB framing property claimed for `writeGLB`: header magic, version and
total-length fields, followed by the 0x20-padded JSON chunk with its 8-byte
chunk header and the 0x00-padded BIN chunk with its 8-byte chunk header. -/
def GlbFraming (jsonBytes binBytes : List Nat) : Prop :=
  let glb := writeGLB jsonBytes binBytes
  let jsonLen := getPaddedBufferSize jsonBytes.length
  let binLen := getPaddedBufferSize binBytes.length
  readU32 glb 0 = GLB_HEADER_MAGIC ∧
  readU32 glb 4 = GLB_VERSION ∧
  readU32 glb 8 = glb.length ∧
  glb.length = 28 + jsonLen + binLen ∧
  jsonLen % 4 = 0 ∧
  binLen % 4 = 0 ∧
  glb.drop 12 =
    u32le jsonLen ++ u32le GLB_CHUNK_TYPE_JSON ++
      (jsonBytes ++ List.replicate (jsonLen - jsonBytes.length) 0x20) ++
    u32le binLen ++ u32le GLB_CHUNK_TYPE_BIN ++
      (binBytes ++ List.replicate (binLen - binBytes.length) 0x00)

/-! ## JSON-mode buffer emission (C2) -/

/-- The base64 alphabet used by Node's `Buffer.prototype.toString('base64')`. -/
def base64chars : List Char :=
  "ABCDEFGHIJKLMNOPQRSTUVWXYZabcdefghijklmnopqrstuvwxyz0123456789+/".data

def base64char (n : Nat) : Char := base64chars.getD n 'A'

/-- Node `Buffer.from(buffer).toString('base64')`: standard base64 with `=`
padding (external Node.js facility used by `GLTFWriter.write`). -/
def base64encode : List Nat → String
  | [] => ""
  | [b0] =>
      String.mk [base64char (b0 / 4), base64char (b0 % 4 * 16), '=', '=']
  | [b0, b1] =>
      String.mk [base64char (b0 / 4), base64char (b0 % 4 * 16 + b1 / 16),
        base64char (b1 % 16 * 4), '=']
  | b0 :: b1 :: b2 :: rest =>
      String.mk [base64char (b0 / 4), base64char (b0 % 4 * 16 + b1 / 16),
        base64char (b1 % 16 * 4 + b2 / 64), base64char (b2 % 64)] ++ base64encode rest

/-- The `options.binary === false` branch of `GLTFWriter.write` with a
non-empty buffer list (GLTFWriter.ts lines 357-364): the string stored into
`json.buffers[0].uri` is `Buffer.from(buffer).toString('base64')` applied to
the merged binary buffer — the bare base64 payload. -/
def writeJsonModeBufferUri (bufferBytes : List Nat) : String :=
  base64encode bufferBytes

/-! ## BufferAttribute and the accessor/bufferView codec (C3, C4, C7) -/

/-- WebGL constants used by the codec (constants.ts `WEBGL_CONSTANTS`). -/
def WEBGL_BYTE : Nat := 0x1400
def WEBGL_UNSIGNED_BYTE : Nat := 0x1401
def WEBGL_SHORT : Nat := 0x1402
def WEBGL_UNSIGNED_SHORT : Nat := 0x1403
def WEBGL_INT : Nat := 0x1404
def WEBGL_UNSIGNED_INT : Nat := 0x1405
def WEBGL_FLOAT : Nat := 0x1406
def WEBGL_ARRAY_BUFFER : Nat := 0x8892
def WEBGL_ELEMENT_ARRAY_BUFFER : Nat := 0x8893

/-- Element type of a `BufferAttribute`'s typed array, one case per branch of
the detection chain in `processAccessor` (GLTFWriter.ts lines 917-949). -/
inductive ComponentArrayType
  | float32 | int32 | uint32 | int16 | uint16 | int8 | uint8
  deriving DecidableEq

/-- A three.js `BufferAttribute`: a flat numeric array (JS numbers, modeled as
rationals; the claims proved over it use only comparisons, copies, exact
subtraction and exact division), an item size, the `normalized` flag and the
typed array's element type. -/
structure BufferAttribute where
  arr : List ℚ
  itemSize : Nat
  normalized : Bool
  arrayType : ComponentArrayType
  deriving DecidableEq

/-- Source `BufferAttribute.count` of three.js: `array.length / itemSize`. -/
def BufferAttribute.count (a : BufferAttribute) : Nat := a.arr.length / a.itemSize

/-- Source `THREE.MathUtils.normalize( value, array )` (external three.js library,
modeled from its source): map an integer-typed stored value into the
normalized range; identity on `Float32Array`. -/
def mathUtilsNormalize (value : ℚ) (t : ComponentArrayType) : ℚ :=
  match t with
  | .float32 => value
  | .uint32 => value / 4294967295
  | .uint16 => value / 65535
  | .uint8 => value / 255
  | .int32 => max (value / 2147483647) (-1)
  | .int16 => max (value / 32767) (-1)
  | .int8 => max (value / 127) (-1)

/-- The component value read by the shared loop body of `getMinMax` and
`processBufferView` (GLTFWriter.ts lines 99-120 and 743-764) for element `i`,
component `a`: a direct array read when `itemSize > 4`, otherwise
`getX`/`getY`/`getZ`/`getW` (which read `array[i * itemSize + a]`) followed by
`MathUtils.normalize` when the attribute is `normalized`. -/
def attrReadValue (attr : BufferAttribute) (i a : Nat) : ℚ :=
  if 4 < attr.itemSize then
    attr.arr.getD (i * attr.itemSize + a) 0
  else
    let value := attr.arr.getD (i * attr.itemSize + a) 0
    if attr.normalized then mathUtilsNormalize value attr.arrayType else value

/-- Source `getMinMax` (GLTFWriter.ts lines 86-131): `min`/`max` start at `+∞`/`-∞`
(`⊤` of `WithTop ℚ` / `⊥` of `WithBot ℚ`) and fold `Math.min`/`Math.max` over
the element range.  The source iterates elements in the outer loop and
components in the inner loop, but slot `a` only ever combines values read at
component `a`, so the per-slot fold below computes the same arrays. -/
def getMinMax (attr : BufferAttribute) (start count : Nat) :
    List (WithTop ℚ) × List (WithBot ℚ) :=
  ((List.range attr.itemSize).map fun a =>
      (((List.range count).map fun i =>
        ((attrReadValue attr (start + i) a : ℚ) : WithTop ℚ)).foldl min ⊤),
   (List.range attr.itemSize).map fun a =>
      (((List.range count).map fun i =>
        ((attrReadValue attr (start + i) a : ℚ) : WithBot ℚ)).foldl max ⊥))

/-- glTF `type` string from the item size (`types` table of `processAccessor`,
GLTFWriter.ts lines 903-912); `none` models a lookup miss (JS `undefined`). -/
def gltfTypeOf (itemSize : Nat) : Option String :=
  if itemSize = 1 then some "SCALAR"
  else if itemSize = 2 then some "VEC2"
  else if itemSize = 3 then some "VEC3"
  else if itemSize = 4 then some "VEC4"
  else if itemSize = 9 then some "MAT3"
  else if itemSize = 16 then some "MAT4"
  else none

/-- The component-type detection chain of `processAccessor` (GLTFWriter.ts
lines 917-949); the `throw` default is unreachable over the supported element
types. -/
def componentTypeOf (t : ComponentArrayType) : Nat :=
  match t with
  | .float32 => WEBGL_FLOAT
  | .int32 => WEBGL_INT
  | .uint32 => WEBGL_UNSIGNED_INT
  | .int16 => WEBGL_SHORT
  | .uint16 => WEBGL_UNSIGNED_SHORT
  | .int8 => WEBGL_BYTE
  | .uint8 => WEBGL_UNSIGNED_BYTE

/-- The `componentSize` switch of `processBufferView` (GLTFWriter.ts lines
703-723): 1 byte for (unsigned) byte, 2 for (unsigned) short, 4 otherwise. -/
def componentSizeOf (componentType : Nat) : Nat :=
  if componentType = WEBGL_BYTE ∨ componentType = WEBGL_UNSIGNED_BYTE then 1
  else if componentType = WEBGL_SHORT ∨ componentType = WEBGL_UNSIGNED_SHORT then 2
  else 4

/-- An entry of `json.bufferViews` as built by `processBufferView` /
`processBufferViewImage`; optional fields model JS fields that are only
conditionally assigned. -/
structure BufferViewDef where
  buffer : Nat
  byteOffset : Nat
  byteLength : Nat
  target : Option Nat
  byteStride : Option Nat
  deriving DecidableEq

/-- An entry of `json.accessors` as built by `processAccessor`.  `byteOffset`
is `Option` because the source reads `bufferView.byteOffset` off the returned
`{ id, byteLength: 0 }` record, which has no such field (JS `undefined`). -/
structure AccessorDef where
  bufferView : Nat
  byteOffset : Option Nat
  componentType : Nat
  count : Nat
  max : List (WithBot ℚ)
  min : List (WithTop ℚ)
  type : Option String
  normalized : Bool
  deriving DecidableEq

/-- The writer state touched by the codec: `this.byteOffset`,
`json.bufferViews`, `json.accessors` and the `cache.attributes` map (attribute
UID → accessor index, an association list with JS-`Map` lookup semantics).
The buffer chunk list itself carries no information the claims need beyond
`byteOffset` and is omitted; `processBuffer` always returns buffer index 0. -/
structure CodecState where
  byteOffset : Nat
  bufferViews : List BufferViewDef
  accessors : List AccessorDef
  cacheAttributes : List (Nat × Nat)
  deriving DecidableEq

def initialCodecState : CodecState :=
  { byteOffset := 0, bufferViews := [], accessors := [], cacheAttributes := [] }

/-- Source `processBufferView` (GLTFWriter.ts lines 688-839), returning the id of the
emitted bufferView (the `{ id, byteLength: 0 }` output's `id`).  The
element-serialization loop writes the byte content of the DataView and does
not affect any emitted bufferView field, so it is not repeated here; the
emitted record fields are computed exactly as in the source. -/
def processBufferView (s : CodecState) (attr : BufferAttribute)
    (componentType start count : Nat) (target : Option Nat) : CodecState × Nat :=
  let _ := start
  let componentSize := componentSizeOf componentType
  let byteStride0 := attr.itemSize * componentSize
  let byteStride :=
    if target = some WEBGL_ARRAY_BUFFER then (byteStride0 + 3) / 4 * 4 else byteStride0
  let byteLength := getPaddedBufferSize (count * byteStride)
  let bufferViewDef : BufferViewDef :=
    { buffer := 0
      byteOffset := s.byteOffset
      byteLength := byteLength
      target := target
      byteStride := if target = some WEBGL_ARRAY_BUFFER then some byteStride else none }
  ({ s with byteOffset := s.byteOffset + byteLength,
            bufferViews := s.bufferViews ++ [bufferViewDef] },
   s.bufferViews.length)

/-- Source `processBufferViewImage` (GLTFWriter.ts lines 846-885): pads the image
blob to a 4-byte boundary and emits a target-less bufferView for it. -/
def processBufferViewImage (s : CodecState) (blobLength : Nat) : CodecState × Nat :=
  let byteLength := getPaddedBufferSize blobLength
  let bufferViewDef : BufferViewDef :=
    { buffer := 0
      byteOffset := s.byteOffset
      byteLength := byteLength
      target := none
      byteStride := none }
  ({ s with byteOffset := s.byteOffset + byteLength,
            bufferViews := s.bufferViews ++ [bufferViewDef] },
   s.bufferViews.length)

/-- Source `processAccessor` (GLTFWriter.ts lines 895-992).  `geometry` carries what
the source extracts from its optional `geometry` argument: `none` when no
geometry is supplied (animation samplers), otherwise whether `attribute ===
geometry.index` (object identity), which picks the bufferView target.
`start?`/`count?` are the optional arguments; `count = Infinity` behaves like
an absent count and is subsumed by `none`. -/
def processAccessor (s : CodecState) (attr : BufferAttribute) (geometry : Option Bool)
    (start? count? : Option Nat) : CodecState × Option Nat :=
  let componentType := componentTypeOf attr.arrayType
  let start := start?.getD 0
  let count := count?.getD attr.count
  if count = 0 then (s, none)
  else
    let minMax := getMinMax attr start count
    let bufferViewTarget := geometry.map fun isIndex =>
      if isIndex then WEBGL_ELEMENT_ARRAY_BUFFER else WEBGL_ARRAY_BUFFER
    let out := processBufferView s attr componentType start count bufferViewTarget
    let accessorDef : AccessorDef :=
      { bufferView := out.2
        byteOffset := none
        componentType := componentType
        count := count
        max := minMax.2
        min := minMax.1
        type := gltfTypeOf attr.itemSize
        normalized := attr.normalized }
    ({ out.1 with accessors := out.1.accessors ++ [accessorDef] },
     some out.1.accessors.length)

/-! ## BufferView alignment and stride (C4) -/

/-- A codec call that appends a bufferView: a `processBufferView` call (the
only way `processAccessor` emits one) or a `processBufferViewImage` call. -/
inductive CodecOp where
  | view (attr : BufferAttribute) (componentType start count : Nat) (target : Option Nat)
  | image (blobLength : Nat)

def applyCodecOp (s : CodecState) (op : CodecOp) : CodecState :=
  match op with
  | .view attr componentType start count target =>
      (processBufferView s attr componentType start count target).1
  | .image blobLength => (processBufferViewImage s blobLength).1

/-- A whole `write()` invocation's sequence of bufferView emissions, starting
from the constructor state (`byteOffset = 0`, no bufferViews). -/
def runCodecOps (s : CodecState) (ops : List CodecOp) : CodecState :=
  ops.foldl applyCodecOp s

/-- The alignment facts claimed for every emitted bufferView. -/
def BufferViewAligned (bv : BufferViewDef) : Prop :=
  bv.byteOffset % 4 = 0 ∧ bv.byteLength % 4 = 0 ∧
    (bv.target = some WEBGL_ARRAY_BUFFER ↔ bv.byteStride ≠ none) ∧
    ∀ st ∈ bv.byteStride, st % 4 = 0

/-! ## Morph-target relativization (C5) -/

/-- Source `getX`/`getY`/`getZ`/`getW` of a non-interleaved three.js
`BufferAttribute`: component `a` of element `j` reads
`array[j * itemSize + a]`. -/
def BufferAttribute.component (attr : BufferAttribute) (j a : Nat) : ℚ :=
  attr.arr.getD (j * attr.itemSize + a) 0

/-- The morph-target relativization of `processMesh` (GLTFWriter.ts lines
1580-1597): the morph attribute is cloned, and when the geometry is not
`morphTargetsRelative` the loop over `j < attrM.count`,
`a < attribute.itemSize` writes `attribute - baseAttribute` component-wise
into the clone via `setX`/`setY`/`setZ`/`setW` (which exist for components
0-3 only).  The loop reads only the unmutated `attribute`/`baseAttribute`
and each iteration writes the distinct index `j * itemSize + a`, so the
element-wise map below computes the same final array. -/
def relativizeMorphAttribute (attrM baseAttribute : BufferAttribute)
    (morphTargetsRelative : Bool) : BufferAttribute :=
  if morphTargetsRelative then attrM
  else
    { attrM with
      arr := (List.range attrM.arr.length).map fun idx =>
        let j := idx / attrM.itemSize
        let a := idx % attrM.itemSize
        if j < attrM.count ∧ a < 4 then
          attrM.component j a - baseAttribute.component j a
        else attrM.arr.getD idx 0 }

/-! ## extensionsUsed / extensionsRequired records (C8) -/

/-- The writer's `extensionsUsed` / `extensionsRequired` records.  JS records
keep first-insertion key order and `Object.keys` at finalization
(GLTFWriter.ts lines 309-313) lists exactly these keys, so each record is the
ordered list of its keys. -/
structure ExtensionsRecords where
  used : List String
  required : List String
  deriving DecidableEq

/-- Source `record[name] = true` on a JS record: inserts the key if absent
(re-assignment keeps the original key position). -/
def recordKey (l : List String) (n : String) : List String :=
  if n ∈ l then l else l ++ [n]

/-- One constructor per assignment site of `extensionsUsed` /
`extensionsRequired` in the writer and the built-in plug-ins:
`customExtension` is `serializeUserData` (GLTFWriter.ts line 400),
`textureTransform` is `applyTextureTransform` (line 546), `meshQuantization`
is `detectMeshQuantization` (lines 1727, 1772-1773, including its
already-used early return), `lightsPunctual` is `GLTFLightExtension.writeNode`
(lines 2298-2302), `gpuInstancing` is `GLTFMeshGpuInstancing.writeNode`
(lines 59-60), and the remaining constructors are the material plug-ins'
`writeMaterial` sites, each setting only `extensionsUsed`. -/
inductive ExtensionEvent where
  | customExtension (name : String)
  | textureTransform
  | meshQuantization
  | lightsPunctual
  | gpuInstancing
  | materialsSheen
  | materialsDispersion
  | materialsIor
  | materialsClearcoat
  | materialsEmissiveStrength
  | materialsAnisotropy
  | materialsIridescence
  | materialsSpecular
  | materialsTransmission
  | materialsVolume
  | materialsUnlit

def applyExtensionEvent (s : ExtensionsRecords) (e : ExtensionEvent) : ExtensionsRecords :=
  match e with
  | .customExtension n => { s with used := recordKey s.used n }
  | .textureTransform => { s with used := recordKey s.used "KHR_texture_transform" }
  | .meshQuantization =>
      if "KHR_mesh_quantization" ∈ s.used then s
      else { used := recordKey s.used "KHR_mesh_quantization",
             required := recordKey s.required "KHR_mesh_quantization" }
  | .lightsPunctual => { s with used := recordKey s.used "KHR_lights_punctual" }
  | .gpuInstancing =>
      { used := recordKey s.used "EXT_mesh_gpu_instancing",
        required := recordKey s.required "EXT_mesh_gpu_instancing" }
  | .materialsSheen => { s with used := recordKey s.used "KHR_materials_sheen" }
  | .materialsDispersion => { s with used := recordKey s.used "KHR_materials_dispersion" }
  | .materialsIor => { s with used := recordKey s.used "KHR_materials_ior" }
  | .materialsClearcoat => { s with used := recordKey s.used "KHR_materials_clearcoat" }
  | .materialsEmissiveStrength =>
      { s with used := recordKey s.used "KHR_materials_emissive_strength" }
  | .materialsAnisotropy => { s with used := recordKey s.used "KHR_materials_anisotropy" }
  | .materialsIridescence => { s with used := recordKey s.used "KHR_materials_iridescence" }
  | .materialsSpecular => { s with used := recordKey s.used "KHR_materials_specular" }
  | .materialsTransmission => { s with used := recordKey s.used "KHR_materials_transmission" }
  | .materialsVolume => { s with used := recordKey s.used "KHR_materials_volume" }
  | .materialsUnlit => { s with used := recordKey s.used "KHR_materials_unlit" }

/-- A `write()` invocation's extension-record updates, from the constructor's
empty records (GLTFWriter.ts lines 238-239). -/
def runExtensionEvents (events : List ExtensionEvent) : ExtensionsRecords :=
  events.foldl applyExtensionEvent ⟨[], []⟩

/-! ## processMesh geometry restoration (C9) -/

/-- A `geometry.groups` entry (`start`/`count`/`materialIndex`, any of which
JS may leave undefined). -/
structure GroupDef where
  start : Option Nat
  count : Option Nat
  materialIndex : Option Nat

/-- The part of a `BufferGeometry` that `processMesh` mutates or branches on:
the named attribute streams (unique keys, as JS object keys), the index
stream, the material groups and the morph-relative flag. -/
structure MeshGeometry where
  attributes : String → Option BufferAttribute
  index : Option (List Nat)
  groups : List GroupDef
  morphTargetsRelative : Bool

/-- Source `geometry.setAttribute(name, attr)`. -/
def MeshGeometry.setAttribute (g : MeshGeometry) (name : String) (attr : BufferAttribute) :
    MeshGeometry :=
  { g with attributes := Function.update g.attributes name (some attr) }

/-- Source `geometry.setIndex(value)` (`some` a list of indices, or `none` for null). -/
def MeshGeometry.setIndex (g : MeshGeometry) (idx : Option (List Nat)) : MeshGeometry :=
  { g with index := idx }

/-- Source `geometry.attributes.position.count` (0 when position is absent; the
source would throw there, which never reaches the restore point and does not
affect the restoration property). -/
def MeshGeometry.positionCount (g : MeshGeometry) : Nat :=
  match g.attributes "position" with
  | some p => p.count
  | none => 0

/-- The geometry-mutating control flow of `processMesh` (GLTFWriter.ts lines
1383-1712), with everything that only reads the geometry or mutates the codec
state abstracted into parameters, so the restoration property below holds for
every outcome of those parts: `cacheHit` is the mesh-cache check (line 1406),
`isNormalizedNormalAttribute` / `createNormalizedNormalAttribute` stand for
the writer methods of those names (their float vector-length computations are
irrelevant to which geometry state is restored), and `attributesEmpty` is
whether the attribute-emission loop (lines 1465-1515, which reads the
geometry and writes only accessors/caches) produced no exportable attributes
(line 1520).  The returned flag is `none` for the source's null returns. -/
def processMeshGeometryFlow
    (isNormalizedNormalAttribute : BufferAttribute → Bool)
    (createNormalizedNormalAttribute : BufferAttribute → BufferAttribute)
    (cacheHit attributesEmpty isMultiMaterial : Bool)
    (g : MeshGeometry) : Option Bool × MeshGeometry :=
  if cacheHit then (some true, g)
  else
    let originalNormal := g.attributes "normal"
    let g1 :=
      match originalNormal with
      | some n =>
          if isNormalizedNormalAttribute n = false then
            g.setAttribute "normal" (createNormalizedNormalAttribute n)
          else g
      | none => g
    let g2 :=
      match originalNormal with
      | some n => g1.setAttribute "normal" n
      | none => g1
    if attributesEmpty then (none, g2)
    else if isMultiMaterial ∧ g2.groups.length = 0 then (none, g2)
    else
      let didForceIndices := isMultiMaterial ∧ g2.index = none
      let g3 :=
        if didForceIndices then g2.setIndex (some (List.range g2.positionCount)) else g2
      let g4 := if didForceIndices then g3.setIndex none else g3
      (some true, g4)

/-! ## processNode totality (C10) -/

/-- The scene-graph input of `processNode`: the name, the visibility flag and
the ordered child list.  Transform/mesh/camera/skin payloads affect only the
emitted nodeDef's fields, never the push/return control flow (the source has
no early return), and are not repeated here. -/
inductive Object3D where
  | mk (name : String) (visible : Bool) (children : List Object3D)

def Object3D.name : Object3D → String
  | .mk n _ _ => n

def Object3D.visible : Object3D → Bool
  | .mk _ v _ => v

def Object3D.children : Object3D → List Object3D
  | .mk _ _ c => c

/-- An entry of `json.nodes`; `children` is set from the collected child
indices (the source omits the field when empty, which changes no index). -/
structure NodeDef where
  name : Option String
  children : List Nat

/-- The writer state touched by node emission: `json.nodes` and `nodeMap`.
`nodeMap.set(object, index)` is modeled by consing, with latest-first lookup
semantics. -/
structure NodeState where
  nodes : List NodeDef
  nodeMap : List (Object3D × Nat)

mutual
/-- Source `processNode` (GLTFWriter.ts lines 1987-2088): build the nodeDef, recurse
into the visibility-filtered children collecting their indices, then push the
own def (`json.nodes.push(nodeDef) - 1`) and record the object in `nodeMap`.
There is no conditional return: the function always yields the pushed
index. -/
def processNode (onlyVisible : Bool) (s : NodeState) : Object3D → NodeState × Nat
  | .mk name visible children =>
    let r := processNodeChildren onlyVisible s children
    let nodeDef : NodeDef :=
      { name := if name = "" then none else some name
        children := r.2 }
    (⟨r.1.nodes ++ [nodeDef],
      (Object3D.mk name visible children, r.1.nodes.length) :: r.1.nodeMap⟩,
     r.1.nodes.length)

/-- The child loop of `processNode` (lines 2056-2076): recurse into each child
passing the visibility filter (`child.visible || options.onlyVisible ===
false`), collecting the returned indices. -/
def processNodeChildren (onlyVisible : Bool) (s : NodeState) :
    List Object3D → NodeState × List Nat
  | [] => (s, [])
  | c :: rest =>
    if c.visible = true ∨ onlyVisible = false then
      let rc := processNode onlyVisible s c
      let rr := processNodeChildren onlyVisible rc.1 rest
      (rr.1, rc.2 :: rr.2)
    else
      processNodeChildren onlyVisible s rest
end

mutual
/-- Number of nodes the traversal emits for a subtree. -/
def visibleCount (onlyVisible : Bool) : Object3D → Nat
  | .mk _ _ children => 1 + visibleCountList onlyVisible children

def visibleCountList (onlyVisible : Bool) : List Object3D → Nat
  | [] => 0
  | c :: rest =>
      (if c.visible = true ∨ onlyVisible = false then visibleCount onlyVisible c else 0) +
        visibleCountList onlyVisible rest
end

/-! ## Accessor dedup by attribute UID (C7) -/

/-- The accessor-dedup skeleton of the per-attribute loop of `processMesh`
(GLTFWriter.ts lines 1465-1515): for each attribute reference, identified by
its `getUID` value, reuse the cached accessor index when `cache.attributes`
has the UID; otherwise call `processAccessor(attribute, geometry)` and cache
the returned index when it is non-null.  `store` maps a UID to its attribute
object (`getUID` allocates UIDs per JS object identity, so two references
with the same UID are the same attribute).  Name conversion, `JOINTS_0`
widening and `detectMeshQuantization` touch only the emitted attribute names
and the extension records, never which accessors exist, and are not repeated
here.  Returns the final state and the per-reference accessor index. -/
def processMeshAttributesLoop (store : Nat → BufferAttribute) (s : CodecState) :
    List Nat → CodecState × List (Option Nat)
  | [] => (s, [])
  | u :: rest =>
    match s.cacheAttributes.lookup u with
    | some idx =>
      let r := processMeshAttributesLoop store s rest
      (r.1, some idx :: r.2)
    | none =>
      let pa := processAccessor s (store u) (some false) none none
      match pa.2 with
      | some accIdx =>
        let r := processMeshAttributesLoop store
          { pa.1 with cacheAttributes := (u, accIdx) :: pa.1.cacheAttributes } rest
        (r.1, some accIdx :: r.2)
      | none =>
        let r := processMeshAttributesLoop store pa.1 rest
        (r.1, none :: r.2)

/-- A two-reference store for the dedup witness: UID 7 carries data. -/
def storeCexC7 : Nat → BufferAttribute := fun u =>
  if u = 7 then ⟨[1, 2], 1, false, .float32⟩ else ⟨[], 1, false, .float32⟩

/-! ## Keyframe tracks, insertKeyframe and the morph-track merger (C6) -/

/-- Interpolation modes of a three.js `KeyframeTrack` as the merger
distinguishes them: `InterpolantFactoryMethodDiscrete`,
`InterpolantFactoryMethodLinear`, any other ordinary factory (e.g. smooth),
and the glTF cubic-spline factory
(`isInterpolantFactoryMethodGLTFCubicSpline`). -/
inductive TrackInterpolation
  | discrete | linear | smooth | cubic
  deriving DecidableEq

/-- A three.js `KeyframeTrack`: name, keyframe times, flat value buffer and
interpolation mode (times/values as exact rationals; the claims below are
about comparisons and splices only). -/
structure KeyframeTrack where
  name : String
  times : List ℚ
  values : List ℚ
  interpolation : TrackInterpolation
  deriving DecidableEq

/-- Source `KeyframeTrack.getValueSize()`: `values.length / times.length`. -/
def KeyframeTrack.getValueSize (t : KeyframeTrack) : Nat :=
  t.values.length / t.times.length

/-- Index search used by the interpolant: the last keyframe index at or before
`t`, scanning from `i`. -/
def findSampleIdx (times : List ℚ) (t : ℚ) (i : Nat) : Nat :=
  if i + 1 < times.length ∧ times.getD (i + 1) 0 ≤ t then findSampleIdx times t (i + 1) else i
termination_by times.length - i
decreasing_by omega

/-- Source `Interpolant.evaluate(t)` of the external three.js library for the
discrete and linear interpolants over the track's keyframes, modeled from its
semantics: clamp to the first/last sample outside the keyframe range, step or
lerp inside.  The claims proved below concern keyframe times only and do not
depend on these values. -/
def trackEvaluate (track : KeyframeTrack) (t : ℚ) : List ℚ :=
  let vs := track.getValueSize
  if track.times.length = 0 then List.replicate vs 0
  else if t ≤ track.times.getD 0 0 then
    (List.range vs).map fun a => track.values.getD a 0
  else if track.times.getD (track.times.length - 1) 0 ≤ t then
    (List.range vs).map fun a => track.values.getD ((track.times.length - 1) * vs + a) 0
  else
    let i := findSampleIdx track.times t 0
    match track.interpolation with
    | .discrete => (List.range vs).map fun a => track.values.getD (i * vs + a) 0
    | _ =>
      let t0 := track.times.getD i 0
      let t1 := track.times.getD (i + 1) 0
      let w := (t - t0) / (t1 - t0)
      (List.range vs).map fun a =>
        (1 - w) * track.values.getD (i * vs + a) 0 + w * track.values.getD ((i + 1) * vs + a) 0

/-- The middle loop of `GLTFExporterUtils.insertKeyframe` (part_001 lines
61-81), with an explicit step budget for structural recursion: scan indices
from `i`; collapse onto `times[i]` within the tolerance, insert strictly
between `times[i]` and `times[i + 1]`, else keep scanning.  The JS comparison
`track.times[i + 1] > time` is false at `i + 1 == times.length` (undefined
compares false), which the bound in the insertion guard reproduces.  On
fallthrough (`none`, the loop exhausting the indices) the source installs the
freshly allocated zero-filled arrays, one keyframe longer, and returns
`undefined`; this is reproduced verbatim.  The zero-budget arm coincides with
the fallthrough and is unreachable with the budget `insertKeyframeLoop`
supplies. -/
def insertKeyframeLoopGo (track : KeyframeTrack) (time tolerance : ℚ) (valueSize : Nat) :
    Nat → Nat → KeyframeTrack × Option Nat
  | 0, _ =>
    ({ track with times := List.replicate (track.times.length + 1) 0,
                  values := List.replicate (track.values.length + valueSize) 0 }, none)
  | fuel + 1, i =>
    if i < track.times.length then
      if |track.times.getD i 0 - time| < tolerance then (track, some i)
      else if track.times.getD i 0 < time ∧ i + 1 < track.times.length ∧
          time < track.times.getD (i + 1) 0 then
        ({ track with
            times := track.times.take (i + 1) ++ time :: track.times.drop (i + 1),
            values := track.values.take ((i + 1) * valueSize) ++ trackEvaluate track time
              ++ track.values.drop ((i + 1) * valueSize) },
         some (i + 1))
      else insertKeyframeLoopGo track time tolerance valueSize fuel (i + 1)
    else
      ({ track with times := List.replicate (track.times.length + 1) 0,
                    values := List.replicate (track.values.length + valueSize) 0 }, none)

def insertKeyframeLoop (track : KeyframeTrack) (time tolerance : ℚ) (valueSize : Nat)
    (i : Nat) : KeyframeTrack × Option Nat :=
  insertKeyframeLoopGo track time tolerance valueSize (track.times.length + 1 - i) i

/-- Source `GLTFExporterUtils.insertKeyframe` (part_001 lines 8-90): returns the
updated track and the index of the found-or-inserted keyframe at `time`
(tolerance 0.001 s).  The empty, before-first and after-last cases are
inlined here; the in-range case is `insertKeyframeLoop`.  (For an empty track
the source's `getValueSize` divides by zero; that call never occurs in the
merger and the Nat division yields value size 0 here.) -/
def insertKeyframe (track : KeyframeTrack) (time : ℚ) : KeyframeTrack × Option Nat :=
  let tolerance : ℚ := 1 / 1000
  let valueSize := track.getValueSize
  if track.times.length = 0 then
    ({ track with times := [time], values := List.replicate valueSize 0 }, some 0)
  else if time < track.times.getD 0 0 then
    if |track.times.getD 0 0 - time| < tolerance then (track, some 0)
    else
      ({ track with times := time :: track.times,
                    values := trackEvaluate track time ++ track.values }, some 0)
  else if track.times.getD (track.times.length - 1) 0 < time then
    if |track.times.getD (track.times.length - 1) 0 - time| < tolerance then
      (track, some (track.times.length - 1))
    else
      ({ track with times := track.times ++ [time],
                    values := track.values ++ trackEvaluate track time },
       some track.times.length)
  else
    insertKeyframeLoop track time tolerance valueSize 0

/-- The result of `PropertyBinding.parseTrackName` (external three.js) as the
merger consumes it: node name, property name and per-morph property index. -/
structure TrackBinding where
  nodeName : Option String
  propertyName : String
  propertyIndex : Option String

/-- What the merger reads off the node resolved by
`PropertyBinding.findNode(root, nodeName)` (external three.js): its uuid, its
`morphTargetInfluences.length` and its `morphTargetDictionary`. -/
structure MorphNode where
  uuid : String
  morphTargetInfluencesLength : Nat
  morphTargetDictionary : List (String × Nat)

structure AnimationClip where
  name : String
  tracks : List KeyframeTrack
  deriving DecidableEq

/-- Loop 2 of the merged-track update (part_001 lines 182-187): insert (or
find) a keyframe at the source's `j`-th time, then overwrite the slot
`keyframeIndex * targetCount + targetIndex` with the source's `j`-th value.
An `undefined` keyframe index makes the JS assignment target index `NaN`,
which a typed array drops, so `none` writes nothing. -/
def mergeApplyInsert (targetCount targetIndex : Nat) (src : KeyframeTrack)
    (mt : KeyframeTrack) (j : Nat) : KeyframeTrack :=
  let r := insertKeyframe mt (src.times.getD j 0)
  match r.2 with
  | some k =>
      { r.1 with
        values := r.1.values.set (k * targetCount + targetIndex) (src.values.getD j 0) }
  | none => r.1

/-- Replace the merged track stored under a node uuid (JS object aliasing:
the map and the output list refer to the same mutated track object; the
output list below stores the uuid and resolves it at the end). -/
def updateAssoc (l : List (String × KeyframeTrack)) (k : String) (v : KeyframeTrack) :
    List (String × KeyframeTrack) :=
  l.map fun p => if p.1 = k then (k, v) else p

/-- The track loop of `GLTFExporterUtils.mergeMorphTargetTracks` (part_001
lines 98-188), threading the output list (`Sum.inr uuid` marks a slot that
aliases the merged track of that node) and the per-node merged-track map.
`parse` and `findNode` stand for the external three.js `PropertyBinding`
facilities; a null `findNode` result makes the source crash on
`.morphTargetInfluences`, modeled as an error.  In the first-track branch,
the zero-filled stride-`targetCount` value buffer holds the source's `j`-th
value at slot `j * targetCount + targetIndex` (for a well-formed dictionary,
`targetIndex < targetCount`, the element-wise map below writes exactly those
slots). -/
def mergeLoop (parse : String → TrackBinding) (findNode : Option String → Option MorphNode) :
    List KeyframeTrack → List (Sum KeyframeTrack String) → List (String × KeyframeTrack) →
    Except String (List (Sum KeyframeTrack String) × List (String × KeyframeTrack))
  | [], outT, merged => .ok (outT, merged)
  | st :: rest, outT, merged =>
    let binding := parse st.name
    if binding.propertyName ≠ "morphTargetInfluences" ∨ binding.propertyIndex = none then
      mergeLoop parse findNode rest (outT ++ [Sum.inl st]) merged
    else if st.interpolation = .cubic then
      .error "THREE.GLTFExporter: Cannot merge tracks with glTF CUBICSPLINE interpolation."
    else
      let sourceTrack :=
        if st.interpolation = .smooth then { st with interpolation := .linear } else st
      match findNode binding.nodeName with
      | none => .error "TypeError: sourceTrackNode is null"
      | some node =>
        let targetCount := node.morphTargetInfluencesLength
        match node.morphTargetDictionary.lookup (binding.propertyIndex.getD "") with
        | none => .error ("THREE.GLTFExporter: Morph target name not found: "
            ++ binding.propertyIndex.getD "")
        | some targetIndex =>
          match merged.lookup node.uuid with
          | none =>
            let values := (List.range (targetCount * sourceTrack.times.length)).map fun idx =>
              if idx % targetCount = targetIndex then
                sourceTrack.values.getD (idx / targetCount) 0
              else 0
            let mergedTrack := { sourceTrack with
              name := (binding.nodeName.getD "") ++ ".morphTargetInfluences",
              values := values }
            mergeLoop parse findNode rest (outT ++ [Sum.inr node.uuid])
              ((node.uuid, mergedTrack) :: merged)
          | some mergedTrack =>
            let mt1 := { mergedTrack with values :=
              (List.range mergedTrack.values.length).map fun idx =>
                if idx % targetCount = targetIndex ∧
                    idx / targetCount < mergedTrack.times.length then
                  (trackEvaluate sourceTrack
                    (mergedTrack.times.getD (idx / targetCount) 0)).getD 0 0
                else mergedTrack.values.getD idx 0 }
            let mt2 := (List.range sourceTrack.times.length).foldl
              (mergeApplyInsert targetCount targetIndex sourceTrack) mt1
            mergeLoop parse findNode rest outT (updateAssoc merged node.uuid mt2)

/-- Source `GLTFExporterUtils.mergeMorphTargetTracks` (part_001 lines 92-194):
run the track loop and materialize the aliased merged tracks into
`clip.tracks`. -/
def mergeMorphTargetTracks (parse : String → TrackBinding)
    (findNode : Option String → Option MorphNode) (clip : AnimationClip) :
    Except String AnimationClip :=
  match mergeLoop parse findNode clip.tracks [] [] with
  | .error e => .error e
  | .ok (outT, merged) =>
    .ok { clip with tracks := outT.map fun x =>
        match x with
        | .inl t => t
        | .inr uuid => (merged.lookup uuid).getD ⟨"", [], [], .linear⟩ }

/-- The property the claim asserts of every merged track's times: adjacent
keyframes more than 0.001 s apart. -/
def KeyframeGapsExceedTolerance (ts : List ℚ) : Prop :=
  List.Chain' (fun a b => b - a > 1 / 1000) ts

/-- Bindings for the counterexample clip: one per-morph track on node `m`. -/
def parseCexC6 : String → TrackBinding := fun n =>
  if n = "m.morphTargetInfluences[A]" then
    ⟨some "m", "morphTargetInfluences", some "A"⟩
  else ⟨none, "", none⟩

/-- The counterexample scene: node `m` has one morph target named `A`. -/
def findNodeCexC6 : Option String → Option MorphNode := fun _ =>
  some ⟨"u1", 1, [("A", 0)]⟩

/-- A clip whose single morph track already has two keyframes 0.0005 s
apart — a legal `AnimationClip`. -/
def clipCexC6 : AnimationClip :=
  ⟨"clip", [⟨"m.morphTargetInfluences[A]", [0, 1 / 2000], [1, 1], .linear⟩]⟩

theorem getPaddedBufferSize_ge (n : Nat) : n ≤ getPaddedBufferSize n := by
  unfold getPaddedBufferSize; omega

theorem getPaddedBufferSize_mod4 (n : Nat) : getPaddedBufferSize n % 4 = 0 := by
  unfold getPaddedBufferSize; omega

theorem getPaddedArrayBuffer_length (b : List Nat) (p : Nat) :
    (getPaddedArrayBuffer b p).length = getPaddedBufferSize b.length := by
  have h := getPaddedBufferSize_ge b.length
  simp [getPaddedArrayBuffer]
  omega

theorem readU32_u32le (n : Nat) (rest : List Nat) :
    readU32 (u32le n ++ rest) 0 = n % 4294967296 := by
  simp [readU32, u32le]
  omega

theorem readU32_cons_succ (a : Nat) (l : List Nat) (k : Nat) :
    readU32 (a :: l) (k + 1) = readU32 l k := by
  simp only [readU32, List.drop_succ_cons]

theorem readU32_u32le_shift (n : Nat) (l : List Nat) (k : Nat) :
    readU32 (u32le n ++ l) (k + 4) = readU32 l k := by
  show readU32 (n % 256 :: (n / 256 % 256 :: (n / 65536 % 256 :: (n / 16777216 % 256 :: l))))
    (k + 1 + 1 + 1 + 1) = readU32 l k
  rw [readU32_cons_succ, readU32_cons_succ, readU32_cons_succ, readU32_cons_succ]

theorem drop_u32le_shift (n : Nat) (l : List Nat) (k : Nat) :
    (u32le n ++ l).drop (k + 4) = l.drop k := by
  show (n % 256 :: (n / 256 % 256 :: (n / 65536 % 256 :: (n / 16777216 % 256 :: l)))).drop
    (k + 1 + 1 + 1 + 1) = l.drop k
  rw [List.drop_succ_cons, List.drop_succ_cons, List.drop_succ_cons, List.drop_succ_cons]

/-- Source `writeGLB` unfolded into its byte-level normal form. -/
theorem writeGLB_eq (jsonBytes binBytes : List Nat) :
    writeGLB jsonBytes binBytes =
      u32le GLB_HEADER_MAGIC ++ (u32le GLB_VERSION ++
      (u32le (12 + 8 + getPaddedBufferSize jsonBytes.length
        + 8 + getPaddedBufferSize binBytes.length) ++
      (u32le (getPaddedBufferSize jsonBytes.length) ++ (u32le GLB_CHUNK_TYPE_JSON ++
      ((jsonBytes ++
          List.replicate (getPaddedBufferSize jsonBytes.length - jsonBytes.length) 0x20) ++
      (u32le (getPaddedBufferSize binBytes.length) ++ (u32le GLB_CHUNK_TYPE_BIN ++
      (binBytes ++
          List.replicate (getPaddedBufferSize binBytes.length - binBytes.length) 0x00)))))))) := by
  simp only [writeGLB]
  rw [getPaddedArrayBuffer_length, getPaddedArrayBuffer_length]
  simp only [getPaddedArrayBuffer, GLB_HEADER_BYTES, GLB_CHUNK_HEAD_BYTES]
  simp [List.append_assoc]

/-- Claim C1: For every binary-mode export, the delivered buffer is laid out as a
12-byte header (magic 0x46546C67, version 2, total length = whole buffer
length), then the 8-byte JSON chunk head (padded length, type 0x4E4F534A) and
the JSON chunk right-padded with 0x20 to a multiple of 4, then the 8-byte BIN
chunk head (padded length, type 0x004E4942) and the binary chunk right-padded
with 0x00 to a multiple of 4. -/
theorem write_binary_glb_framing (jsonBytes binBytes : List Nat)
    (hsize : 28 + getPaddedBufferSize jsonBytes.length + getPaddedBufferSize binBytes.length
      < 4294967296) :
    GlbFraming jsonBytes binBytes := by
  have hjge := getPaddedBufferSize_ge jsonBytes.length
  have hbge := getPaddedBufferSize_ge binBytes.length
  simp only [GlbFraming]
  rw [writeGLB_eq]
  refine ⟨?_, ?_, ?_, ?_, getPaddedBufferSize_mod4 _, getPaddedBufferSize_mod4 _, ?_⟩
  · rw [readU32_u32le]; decide
  · rw [show (4 : Nat) = 0 + 4 by rfl, readU32_u32le_shift, readU32_u32le]; decide
  · rw [show (8 : Nat) = 0 + 4 + 4 by rfl, readU32_u32le_shift, readU32_u32le_shift, readU32_u32le]
    simp [u32le, List.length_append, List.length_replicate]
    omega
  · simp [u32le, List.length_append, List.length_replicate]
    omega
  · rw [show (12 : Nat) = 0 + 4 + 4 + 4 by rfl, drop_u32le_shift, drop_u32le_shift,
      drop_u32le_shift, List.drop_zero]
    simp [List.append_assoc]

theorem write_binary_glb_framing_witness :
    28 + getPaddedBufferSize ([123, 34, 97, 34, 58, 49, 125] : List Nat).length
      + getPaddedBufferSize ([1, 2, 3] : List Nat).length < 4294967296 ∧
    GlbFraming [123, 34, 97, 34, 58, 49, 125] [1, 2, 3] :=
  ⟨by decide, write_binary_glb_framing [123, 34, 97, 34, 58, 49, 125] [1, 2, 3] (by decide)⟩

/-- Claim C2 (code bug): for the JSON-mode export of a document with a non-empty
binary buffer, the emitted `json.buffers[0].uri` is NOT a `data:` URI: the
source assigns the raw base64 payload, without any scheme prefix.  On the
merged buffer bytes `[1, 2, 3]` the emitted uri is `AQID`, whose first five
characters differ from `data:`.  (The upstream code this ports obtained the
uri from `FileReader.readAsDataURL`, which yields
`data:application/octet-stream;base64,...`; the port replaced it with a bare
`Buffer.toString('base64')`.) -/
theorem writeJsonModeBufferUri_missing_scheme :
    writeJsonModeBufferUri [1, 2, 3] = "AQID" ∧
    (writeJsonModeBufferUri [1, 2, 3]).take 5 ≠ "data:" := by
  constructor
  · rfl
  · decide

theorem foldl_min_le_init {α : Type} [LinearOrder α] (l : List α) (init : α) :
    l.foldl min init ≤ init := by
  induction l generalizing init with
  | nil => exact le_refl _
  | cons a t ih => exact le_trans (ih (min init a)) (min_le_left _ _)

theorem foldl_min_le_mem {α : Type} [LinearOrder α] (l : List α) (init x : α)
    (hx : x ∈ l) : l.foldl min init ≤ x := by
  induction l generalizing init with
  | nil => cases hx
  | cons a t ih =>
    rcases List.mem_cons.mp hx with h | h
    · rw [h]
      exact le_trans (foldl_min_le_init t (min init a)) (min_le_right _ _)
    · exact ih _ h

theorem le_foldl_max_init {α : Type} [LinearOrder α] (l : List α) (init : α) :
    init ≤ l.foldl max init := by
  induction l generalizing init with
  | nil => exact le_refl _
  | cons a t ih => exact le_trans (le_max_left _ _) (ih (max init a))

theorem le_foldl_max_mem {α : Type} [LinearOrder α] (l : List α) (init x : α)
    (hx : x ∈ l) : x ≤ l.foldl max init := by
  induction l generalizing init with
  | nil => cases hx
  | cons a t ih =>
    rcases List.mem_cons.mp hx with h | h
    · rw [h]
      exact le_trans (le_max_right _ _) (le_foldl_max_init t (max init a))
    · exact ih _ h

theorem getD_map_range {α : Type} (n a : Nat) (f : Nat → α) (d : α) (h : a < n) :
    (((List.range n).map f).getD a d) = f a := by
  rw [List.getD_eq_getElem?_getD, List.getElem?_map, List.getElem?_range h]
  rfl

/-- The min/max arrays of `getMinMax` have length `itemSize` and bound every
component value in the requested element range. -/
theorem getMinMax_bounds (attr : BufferAttribute) (start count k a : Nat)
    (hk1 : start ≤ k) (hk2 : k < start + count) (ha : a < attr.itemSize) :
    (getMinMax attr start count).1.length = attr.itemSize ∧
    (getMinMax attr start count).2.length = attr.itemSize ∧
    (getMinMax attr start count).1.getD a ⊤ ≤ ((attrReadValue attr k a : ℚ) : WithTop ℚ) ∧
    ((attrReadValue attr k a : ℚ) : WithBot ℚ) ≤ (getMinMax attr start count).2.getD a ⊥ := by
  refine ⟨by simp [getMinMax], by simp [getMinMax], ?_, ?_⟩
  · show (((List.range attr.itemSize).map fun b =>
      (((List.range count).map fun i =>
        ((attrReadValue attr (start + i) b : ℚ) : WithTop ℚ)).foldl min ⊤)).getD a ⊤) ≤ _
    rw [getD_map_range _ _ _ _ ha]
    refine foldl_min_le_mem _ _ _ ?_
    refine List.mem_map.mpr ⟨k - start, List.mem_range.mpr (by omega), ?_⟩
    rw [show start + (k - start) = k by omega]
  · show _ ≤ (((List.range attr.itemSize).map fun b =>
      (((List.range count).map fun i =>
        ((attrReadValue attr (start + i) b : ℚ) : WithBot ℚ)).foldl max ⊥)).getD a ⊥)
    rw [getD_map_range _ _ _ _ ha]
    refine le_foldl_max_mem _ _ _ ?_
    refine List.mem_map.mpr ⟨k - start, List.mem_range.mpr (by omega), ?_⟩
    rw [show start + (k - start) = k by omega]

/-- Claim C3: Every accessor emitted by `processAccessor` over the range
`[start, start + count)` of a numeric attribute has `min`/`max` arrays of
length `itemSize`, and for every element index `k` in the range and every
component index `a`, `min[a] ≤ value(k, a) ≤ max[a]`, where `value(k, a)` is
the source component after renormalization when the attribute is marked
`normalized`. -/
theorem processAccessor_minmax_bounds (s : CodecState) (attr : BufferAttribute)
    (geometry : Option Bool) (start count k a : Nat) (acc : AccessorDef)
    (hacc : acc ∈
      ((processAccessor s attr geometry (some start) (some count)).1).accessors.drop
        s.accessors.length)
    (hk1 : start ≤ k) (hk2 : k < start + count) (ha : a < attr.itemSize) :
    acc.min.length = attr.itemSize ∧
    acc.max.length = attr.itemSize ∧
    acc.min.getD a ⊤ ≤ ((attrReadValue attr k a : ℚ) : WithTop ℚ) ∧
    ((attrReadValue attr k a : ℚ) : WithBot ℚ) ≤ acc.max.getD a ⊥ := by
  have hbounds := getMinMax_bounds attr start count k a hk1 hk2 ha
  by_cases hc : count = 0
  · rw [show (processAccessor s attr geometry (some start) (some count)) = (s, none) by
        simp [processAccessor, hc]] at hacc
    rw [List.drop_length] at hacc
    cases hacc
  · have hd : ((processAccessor s attr geometry (some start) (some count)).1).accessors.drop
        s.accessors.length =
        [{ bufferView := s.bufferViews.length
           byteOffset := none
           componentType := componentTypeOf attr.arrayType
           count := count
           max := (getMinMax attr start count).2
           min := (getMinMax attr start count).1
           type := gltfTypeOf attr.itemSize
           normalized := attr.normalized }] := by
      simp only [processAccessor, Option.getD_some, if_neg hc, processBufferView]
      exact List.drop_left _ _
    rw [hd, List.mem_singleton] at hacc
    subst hacc
    exact hbounds

theorem processAccessor_minmax_bounds_witness :
    (({ bufferView := 0, byteOffset := none, componentType := WEBGL_FLOAT, count := 2,
        max := [(3 : WithBot ℚ), (4 : WithBot ℚ)], min := [(1 : WithTop ℚ), (2 : WithTop ℚ)],
        type := some "VEC2", normalized := false } : AccessorDef) ∈
      ((processAccessor initialCodecState
        { arr := [1, 2, 3, 4], itemSize := 2, normalized := false, arrayType := .float32 }
        none (some 0) (some 2)).1).accessors.drop initialCodecState.accessors.length ∧
      (0 : Nat) ≤ 1 ∧ (1 : Nat) < 0 + 2 ∧ (1 : Nat) < 2) ∧
    (([(1 : WithTop ℚ), (2 : WithTop ℚ)] : List (WithTop ℚ)).length = 2 ∧
     ([(3 : WithBot ℚ), (4 : WithBot ℚ)] : List (WithBot ℚ)).length = 2 ∧
     ([(1 : WithTop ℚ), (2 : WithTop ℚ)] : List (WithTop ℚ)).getD 1 ⊤ ≤
       ((attrReadValue
         { arr := [1, 2, 3, 4], itemSize := 2, normalized := false, arrayType := .float32 }
         1 1 : ℚ) : WithTop ℚ) ∧
     ((attrReadValue
         { arr := [1, 2, 3, 4], itemSize := 2, normalized := false, arrayType := .float32 }
         1 1 : ℚ) : WithBot ℚ) ≤
       ([(3 : WithBot ℚ), (4 : WithBot ℚ)] : List (WithBot ℚ)).getD 1 ⊥) :=
  ⟨⟨by decide, by decide, by decide, by decide⟩,
   processAccessor_minmax_bounds initialCodecState
     { arr := [1, 2, 3, 4], itemSize := 2, normalized := false, arrayType := .float32 }
     none 0 2 1 1
     { bufferView := 0, byteOffset := none, componentType := WEBGL_FLOAT, count := 2,
       max := [(3 : WithBot ℚ), (4 : WithBot ℚ)], min := [(1 : WithTop ℚ), (2 : WithTop ℚ)],
       type := some "VEC2", normalized := false }
     (by decide) (by decide) (by decide) (by decide)⟩

theorem runCodecOps_aligned (ops : List CodecOp) (s : CodecState)
    (hoff : s.byteOffset % 4 = 0) (hviews : ∀ bv ∈ s.bufferViews, BufferViewAligned bv) :
    (runCodecOps s ops).byteOffset % 4 = 0 ∧
    ∀ bv ∈ (runCodecOps s ops).bufferViews, BufferViewAligned bv := by
  induction ops generalizing s with
  | nil => exact ⟨hoff, hviews⟩
  | cons op rest ih =>
    refine ih (applyCodecOp s op) ?_ ?_
    · cases op with
      | view attr componentType start count target =>
        have := getPaddedBufferSize_mod4 (count *
          (if target = some WEBGL_ARRAY_BUFFER
            then (attr.itemSize * componentSizeOf componentType + 3) / 4 * 4
            else attr.itemSize * componentSizeOf componentType))
        simp only [applyCodecOp, processBufferView]
        omega
      | image blobLength =>
        have := getPaddedBufferSize_mod4 blobLength
        simp only [applyCodecOp, processBufferViewImage]
        omega
    · intro bv hbv
      cases op with
      | view attr componentType start count target =>
        simp only [applyCodecOp, processBufferView, List.mem_append, List.mem_singleton] at hbv
        rcases hbv with h | h
        · exact hviews bv h
        · subst h
          refine ⟨hoff, getPaddedBufferSize_mod4 _, ?_, ?_⟩
          · by_cases ht : target = some WEBGL_ARRAY_BUFFER <;> simp [ht]
          · intro st hst
            by_cases ht : target = some WEBGL_ARRAY_BUFFER
            · simp only [ht, if_pos] at hst
              simp only [Option.mem_def, Option.some_inj] at hst
              omega
            · simp [ht] at hst
      | image blobLength =>
        simp only [applyCodecOp, processBufferViewImage, List.mem_append,
          List.mem_singleton] at hbv
        rcases hbv with h | h
        · exact hviews bv h
        · subst h
          refine ⟨hoff, getPaddedBufferSize_mod4 _, ?_, ?_⟩
          · simp [WEBGL_ARRAY_BUFFER]
          · intro st hst
            cases hst

/-- Claim C4: Every bufferView emitted over a whole run has `byteOffset` and
`byteLength` divisible by 4, and carries a `byteStride` exactly when its
target is `ARRAY_BUFFER`; moreover a `processBufferView` call with target
`ARRAY_BUFFER` emits `byteStride = ceil(itemSize * componentSize / 4) * 4`,
and any other target emits no `byteStride` field. -/
theorem processBufferView_alignment_and_stride (ops : List CodecOp) :
    (∀ bv ∈ (runCodecOps initialCodecState ops).bufferViews,
      bv.byteOffset % 4 = 0 ∧ bv.byteLength % 4 = 0 ∧
        (bv.target = some WEBGL_ARRAY_BUFFER ↔ bv.byteStride ≠ none) ∧
        ∀ st ∈ bv.byteStride, st % 4 = 0) ∧
    (∀ (s : CodecState) (attr : BufferAttribute) (componentType start count : Nat)
        (target : Option Nat) (bv : BufferViewDef),
      bv ∈ ((processBufferView s attr componentType start count target).1).bufferViews.drop
        s.bufferViews.length →
      (target = some WEBGL_ARRAY_BUFFER →
        bv.byteStride = some ((attr.itemSize * componentSizeOf componentType + 3) / 4 * 4)) ∧
      (target ≠ some WEBGL_ARRAY_BUFFER → bv.byteStride = none)) := by
  constructor
  · intro bv hbv
    exact (runCodecOps_aligned ops initialCodecState (by decide) (by intro bv h; cases h)).2
      bv hbv
  · intro s attr componentType start count target bv hbv
    have hview : ((processBufferView s attr componentType start count target).1).bufferViews =
        s.bufferViews ++
          [⟨0, s.byteOffset,
            getPaddedBufferSize (count *
              (if target = some WEBGL_ARRAY_BUFFER
                then (attr.itemSize * componentSizeOf componentType + 3) / 4 * 4
                else attr.itemSize * componentSizeOf componentType)),
            target,
            if target = some WEBGL_ARRAY_BUFFER
              then some ((attr.itemSize * componentSizeOf componentType + 3) / 4 * 4)
              else none⟩] := by
      simp only [processBufferView]
      by_cases ht : target = some WEBGL_ARRAY_BUFFER <;> simp [ht]
    rw [hview, List.drop_left] at hbv
    rw [List.mem_singleton] at hbv
    subst hbv
    constructor
    · intro ht
      simp [ht]
    · intro ht
      simp [ht]

theorem processBufferView_alignment_and_stride_witness :
    (((⟨0, 8, 8, some WEBGL_ARRAY_BUFFER, some 4⟩ : BufferViewDef) ∈
        (runCodecOps initialCodecState
          [CodecOp.image 5,
           CodecOp.view ⟨[1, 2], 1, false, .uint8⟩ WEBGL_UNSIGNED_BYTE 0 2
             (some WEBGL_ARRAY_BUFFER)]).bufferViews) ∧
      ((⟨0, 0, 8, some WEBGL_ARRAY_BUFFER, some 4⟩ : BufferViewDef) ∈
        ((processBufferView initialCodecState ⟨[1, 2], 1, false, .uint8⟩
          WEBGL_UNSIGNED_BYTE 0 2 (some WEBGL_ARRAY_BUFFER)).1).bufferViews.drop
            initialCodecState.bufferViews.length)) ∧
    (((⟨0, 8, 8, some WEBGL_ARRAY_BUFFER, some 4⟩ : BufferViewDef).byteOffset % 4 = 0 ∧
      (⟨0, 8, 8, some WEBGL_ARRAY_BUFFER, some 4⟩ : BufferViewDef).byteLength % 4 = 0 ∧
      ((⟨0, 8, 8, some WEBGL_ARRAY_BUFFER, some 4⟩ : BufferViewDef).target =
          some WEBGL_ARRAY_BUFFER ↔
        (⟨0, 8, 8, some WEBGL_ARRAY_BUFFER, some 4⟩ : BufferViewDef).byteStride ≠ none) ∧
      ∀ st ∈ (⟨0, 8, 8, some WEBGL_ARRAY_BUFFER, some 4⟩ : BufferViewDef).byteStride,
        st % 4 = 0) ∧
     ((some WEBGL_ARRAY_BUFFER = some WEBGL_ARRAY_BUFFER →
        (⟨0, 0, 8, some WEBGL_ARRAY_BUFFER, some 4⟩ : BufferViewDef).byteStride =
          some ((1 * componentSizeOf WEBGL_UNSIGNED_BYTE + 3) / 4 * 4)) ∧
      (some WEBGL_ARRAY_BUFFER ≠ some WEBGL_ARRAY_BUFFER →
        (⟨0, 0, 8, some WEBGL_ARRAY_BUFFER, some 4⟩ : BufferViewDef).byteStride = none))) :=
  ⟨⟨by decide, by decide⟩,
   ⟨(processBufferView_alignment_and_stride
      [CodecOp.image 5,
       CodecOp.view ⟨[1, 2], 1, false, .uint8⟩ WEBGL_UNSIGNED_BYTE 0 2
         (some WEBGL_ARRAY_BUFFER)]).1
      ⟨0, 8, 8, some WEBGL_ARRAY_BUFFER, some 4⟩ (by decide),
    (processBufferView_alignment_and_stride []).2 initialCodecState
      ⟨[1, 2], 1, false, .uint8⟩ WEBGL_UNSIGNED_BYTE 0 2 (some WEBGL_ARRAY_BUFFER)
      ⟨0, 0, 8, some WEBGL_ARRAY_BUFFER, some 4⟩ (by decide)⟩⟩

/-- Claim C5: For a mesh whose geometry has `morphTargetsRelative = false`, the
attribute emitted for a POSITION or NORMAL morph target holds, at every
vertex `j` and component `a`, exactly the morph attribute's value minus the
base attribute's value at `(j, a)`; the caller's attribute is untouched (the
subtraction happens on a clone).  The hypothesis `itemSize ≤ 4` reflects the
setX-setW write path (POSITION/NORMAL have itemSize 3; itemSize > 4 is an
unsupported input for the exporter). -/
theorem processMesh_morph_relativization (attrM baseAttribute : BufferAttribute)
    (j a : Nat) (hj : j < attrM.count) (ha : a < attrM.itemSize)
    (hsize : attrM.itemSize ≤ 4) :
    (relativizeMorphAttribute attrM baseAttribute false).component j a =
      attrM.component j a - baseAttribute.component j a := by
  have hs : 0 < attrM.itemSize := by omega
  have hcount : attrM.count * attrM.itemSize ≤ attrM.arr.length :=
    Nat.div_mul_le_self _ _
  have hlt : j * attrM.itemSize + a < attrM.arr.length := by
    have h2 : (j + 1) * attrM.itemSize ≤ attrM.count * attrM.itemSize :=
      Nat.mul_le_mul_right _ hj
    rw [Nat.add_mul, Nat.one_mul] at h2
    omega
  have hdiv : (j * attrM.itemSize + a) / attrM.itemSize = j := by
    rw [Nat.mul_comm, Nat.mul_add_div hs, Nat.div_eq_of_lt ha]
    omega
  have hmod : (j * attrM.itemSize + a) % attrM.itemSize = a := by
    rw [Nat.mul_comm, Nat.mul_add_mod, Nat.mod_eq_of_lt ha]
  show ((List.range attrM.arr.length).map _).getD (j * attrM.itemSize + a) 0 = _
  rw [getD_map_range _ _ _ _ hlt]
  simp only [hdiv, hmod]
  rw [if_pos ⟨hj, by omega⟩]

theorem processMesh_morph_relativization_witness :
    ((0 : Nat) < BufferAttribute.count ⟨[5, 7, 9], 3, false, .float32⟩ ∧
      (1 : Nat) < 3 ∧ (3 : Nat) ≤ 4) ∧
    (relativizeMorphAttribute ⟨[5, 7, 9], 3, false, .float32⟩ ⟨[1, 1, 2], 3, false, .float32⟩
        false).component 0 1 =
      BufferAttribute.component ⟨[5, 7, 9], 3, false, .float32⟩ 0 1 -
        BufferAttribute.component ⟨[1, 1, 2], 3, false, .float32⟩ 0 1 :=
  ⟨⟨by decide, by decide, by decide⟩,
   processMesh_morph_relativization ⟨[5, 7, 9], 3, false, .float32⟩
     ⟨[1, 1, 2], 3, false, .float32⟩ 0 1 (by decide) (by decide) (by decide)⟩

theorem mem_recordKey_of_mem {x : String} {l : List String} (n : String) (h : x ∈ l) :
    x ∈ recordKey l n := by
  unfold recordKey
  split
  · exact h
  · exact List.mem_append.mpr (Or.inl h)

theorem mem_recordKey_self (l : List String) (n : String) : n ∈ recordKey l n := by
  unfold recordKey
  split
  · assumption
  · exact List.mem_append.mpr (Or.inr (List.mem_singleton.mpr rfl))

theorem mem_of_mem_recordKey {x : String} {l : List String} {n : String}
    (h : x ∈ recordKey l n) : x = n ∨ x ∈ l := by
  unfold recordKey at h
  split at h
  · exact Or.inr h
  · rcases List.mem_append.mp h with h1 | h1
    · exact Or.inr h1
    · exact Or.inl (List.mem_singleton.mp h1)

theorem foldl_extensionEvents_subset (events : List ExtensionEvent) (s : ExtensionsRecords)
    (hs : ∀ n ∈ s.required, n ∈ s.used) :
    ∀ n ∈ (events.foldl applyExtensionEvent s).required,
      n ∈ (events.foldl applyExtensionEvent s).used := by
  induction events generalizing s with
  | nil => exact hs
  | cons e rest ih =>
    refine ih (applyExtensionEvent s e) ?_
    intro n hn
    cases e with
    | customExtension m => exact mem_recordKey_of_mem m (hs n hn)
    | meshQuantization =>
      simp only [applyExtensionEvent] at hn ⊢
      split at hn
      · next hq =>
        simp only [if_pos hq]
        exact hs n hn
      · next hq =>
        simp only [if_neg hq]
        rcases mem_of_mem_recordKey hn with h | h
        · rw [h]
          exact mem_recordKey_self _ _
        · exact mem_recordKey_of_mem _ (hs n h)
    | gpuInstancing =>
      simp only [applyExtensionEvent] at hn ⊢
      rcases mem_of_mem_recordKey hn with h | h
      · rw [h]
        exact mem_recordKey_self _ _
      · exact mem_recordKey_of_mem _ (hs n h)
    | textureTransform => exact mem_recordKey_of_mem _ (hs n hn)
    | lightsPunctual => exact mem_recordKey_of_mem _ (hs n hn)
    | materialsSheen => exact mem_recordKey_of_mem _ (hs n hn)
    | materialsDispersion => exact mem_recordKey_of_mem _ (hs n hn)
    | materialsIor => exact mem_recordKey_of_mem _ (hs n hn)
    | materialsClearcoat => exact mem_recordKey_of_mem _ (hs n hn)
    | materialsEmissiveStrength => exact mem_recordKey_of_mem _ (hs n hn)
    | materialsAnisotropy => exact mem_recordKey_of_mem _ (hs n hn)
    | materialsIridescence => exact mem_recordKey_of_mem _ (hs n hn)
    | materialsSpecular => exact mem_recordKey_of_mem _ (hs n hn)
    | materialsTransmission => exact mem_recordKey_of_mem _ (hs n hn)
    | materialsVolume => exact mem_recordKey_of_mem _ (hs n hn)
    | materialsUnlit => exact mem_recordKey_of_mem _ (hs n hn)

/-- Claim C8: At finalization of every `write()` invocation, with any combination
of built-in plug-ins firing in any order, every extension name recorded in
`extensionsRequired` is also recorded in `extensionsUsed`: the only two sites
that set an `extensionsRequired` entry (mesh quantization and GPU instancing)
set the same `extensionsUsed` entry, and every other site only grows
`extensionsUsed`. -/
theorem extensionsRequired_subset_extensionsUsed (events : List ExtensionEvent) :
    ∀ n ∈ (runExtensionEvents events).required, n ∈ (runExtensionEvents events).used :=
  foldl_extensionEvents_subset events ⟨[], []⟩ (by intro n hn; cases hn)

theorem extensionsRequired_subset_extensionsUsed_witness :
    ("EXT_mesh_gpu_instancing" ∈
      (runExtensionEvents [.materialsUnlit, .gpuInstancing, .meshQuantization]).required) ∧
    ("EXT_mesh_gpu_instancing" ∈
      (runExtensionEvents [.materialsUnlit, .gpuInstancing, .meshQuantization]).used) :=
  ⟨by decide,
   extensionsRequired_subset_extensionsUsed [.materialsUnlit, .gpuInstancing, .meshQuantization]
     "EXT_mesh_gpu_instancing" (by decide)⟩

theorem setAttribute_restore (g : MeshGeometry) (name : String) (n x : BufferAttribute)
    (h : g.attributes name = some n) :
    (g.setAttribute name x).setAttribute name n = g := by
  cases g with
  | mk attrs idx groups rel =>
    simp only [MeshGeometry.setAttribute, Function.update_idem]
    congr 1
    rw [show (some n) = attrs name from h.symm]
    exact Function.update_eq_self _ _

theorem setAttribute_self (g : MeshGeometry) (name : String) (n : BufferAttribute)
    (h : g.attributes name = some n) :
    g.setAttribute name n = g := by
  cases g with
  | mk attrs idx groups rel =>
    simp only [MeshGeometry.setAttribute]
    congr 1
    rw [show (some n) = attrs name from h.symm]
    exact Function.update_eq_self _ _

/-- Claim C9: `processMesh` leaves the input geometry in its original state on
every return path: a trivial index synthesized for an unindexed
multi-material geometry is reset to null afterwards, and the original normal
attribute is set back after a normalized clone was substituted for
emission. -/
theorem processMesh_restores_geometry
    (isNormalizedNormalAttribute : BufferAttribute → Bool)
    (createNormalizedNormalAttribute : BufferAttribute → BufferAttribute)
    (cacheHit attributesEmpty isMultiMaterial : Bool) (g : MeshGeometry) :
    (processMeshGeometryFlow isNormalizedNormalAttribute createNormalizedNormalAttribute
      cacheHit attributesEmpty isMultiMaterial g).2 = g := by
  by_cases hc : cacheHit
  · simp [processMeshGeometryFlow, hc]
  · simp only [processMeshGeometryFlow, if_neg hc]
    have hg2 :
        (match g.attributes "normal" with
          | some n =>
              (match g.attributes "normal" with
                | some n0 =>
                    if isNormalizedNormalAttribute n0 = false then
                      g.setAttribute "normal" (createNormalizedNormalAttribute n0)
                    else g
                | none => g).setAttribute "normal" n
          | none =>
              (match g.attributes "normal" with
                | some n0 =>
                    if isNormalizedNormalAttribute n0 = false then
                      g.setAttribute "normal" (createNormalizedNormalAttribute n0)
                    else g
                | none => g)) = g := by
      cases hN : g.attributes "normal" with
      | none => simp
      | some n =>
        simp only []
        by_cases hb : isNormalizedNormalAttribute n = false
        · rw [if_pos hb]
          exact setAttribute_restore g "normal" n _ hN
        · rw [if_neg hb]
          exact setAttribute_self g "normal" n hN
    rw [hg2]
    split
    · rfl
    split
    · rfl
    by_cases hf : isMultiMaterial = true ∧ g.index = none
    · have hidx : g.index = none := hf.2
      have hrestore : (g.setIndex (some (List.range g.positionCount))).setIndex none = g := by
        cases g with
        | mk attrs idx groups rel =>
          simp only [MeshGeometry.setIndex]
          simp_all
      simp [hf, hrestore]
    · simp [hf]

mutual
theorem processNode_aux (onlyVisible : Bool) (s : NodeState) (obj : Object3D) :
    ((processNode onlyVisible s obj).1).nodes.length
      = s.nodes.length + visibleCount onlyVisible obj ∧
    (processNode onlyVisible s obj).2 + 1
      = ((processNode onlyVisible s obj).1).nodes.length ∧
    ∃ m, ((processNode onlyVisible s obj).1).nodeMap
      = (obj, (processNode onlyVisible s obj).2) :: m := by
  cases obj with
  | mk name visible children =>
    have hch := processNodeChildren_aux onlyVisible s children
    simp only [processNode, visibleCount]
    refine ⟨?_, ?_, ?_⟩
    · simp only [List.length_append, List.length_singleton]
      omega
    · simp only [List.length_append, List.length_singleton]
    · exact ⟨_, rfl⟩

theorem processNodeChildren_aux (onlyVisible : Bool) (s : NodeState) (cs : List Object3D) :
    ((processNodeChildren onlyVisible s cs).1).nodes.length
      = s.nodes.length + visibleCountList onlyVisible cs := by
  cases cs with
  | nil => simp [processNodeChildren, visibleCountList]
  | cons c rest =>
    by_cases hv : c.visible = true ∨ onlyVisible = false
    · have hc := processNode_aux onlyVisible s c
      have hr := processNodeChildren_aux onlyVisible
        (processNode onlyVisible s c).1 rest
      simp only [processNodeChildren, visibleCountList, if_pos hv]
      omega
    · have hr := processNodeChildren_aux onlyVisible s rest
      simp only [processNodeChildren, visibleCountList, if_neg hv]
      omega
end

/-- Claim C10: `processNode` is total and never yields null: for every object it
appends exactly one node definition of its own (its subtree contributes
`visibleCount` definitions in all, at least one), returns the index of that
definition (the last entry of `json.nodes`), and records the object-to-index
mapping at the head of `nodeMap` before returning — so the null-guards on its
result in `processScene` and in the recursive child loop can never fire. -/
theorem processNode_total_nonnull (onlyVisible : Bool) (s : NodeState) (obj : Object3D) :
    ((processNode onlyVisible s obj).1).nodes.length
      = s.nodes.length + visibleCount onlyVisible obj ∧
    1 ≤ visibleCount onlyVisible obj ∧
    (processNode onlyVisible s obj).2 + 1
      = ((processNode onlyVisible s obj).1).nodes.length ∧
    ∃ m, ((processNode onlyVisible s obj).1).nodeMap
      = (obj, (processNode onlyVisible s obj).2) :: m := by
  have h := processNode_aux onlyVisible s obj
  refine ⟨h.1, ?_, h.2.1, h.2.2⟩
  cases obj with
  | mk name visible children => simp [visibleCount]

/-- State effect of `processAccessor` with defaulted range: no accessor and an
untouched state when `attribute.count = 0`, otherwise exactly one appended
accessor whose index is returned; `cache.attributes` is never touched. -/
theorem processAccessor_effects (s : CodecState) (attr : BufferAttribute) (g : Option Bool) :
    ((processAccessor s attr g none none).1).cacheAttributes = s.cacheAttributes ∧
    ((processAccessor s attr g none none).1).accessors.length
      = s.accessors.length + (if attr.count = 0 then 0 else 1) ∧
    (processAccessor s attr g none none).2
      = (if attr.count = 0 then none else some s.accessors.length) := by
  by_cases hc : attr.count = 0 <;> simp [processAccessor, processBufferView, hc]

theorem lookup_cons_self (c : List (Nat × Nat)) (u a : Nat) :
    List.lookup u ((u, a) :: c) = some a := by
  simp [List.lookup]

theorem lookup_cons_ne (c : List (Nat × Nat)) (u v a : Nat) (h : ¬v = u) :
    List.lookup v ((u, a) :: c) = List.lookup v c := by
  have hb : (v == u) = false := by simp [h]
  simp [List.lookup, hb]

theorem insert_card_erase {u : Nat} (A : Finset Nat) :
    (insert u A).card = (A.erase u).card + 1 := by
  have h1 : insert u A = insert u (A.erase u) := by
    ext x
    simp only [Finset.mem_insert, Finset.mem_erase]
    constructor
    · rintro (h | h)
      · exact Or.inl h
      · by_cases hx : x = u
        · exact Or.inl hx
        · exact Or.inr ⟨hx, h⟩
    · rintro (h | h)
      · exact Or.inl h
      · exact Or.inr h.2
  rw [h1, Finset.card_insert_of_not_mem (Finset.not_mem_erase u A)]

theorem processMeshAttributesLoop_spec (store : Nat → BufferAttribute) (uids : List Nat) :
    ∀ s : CodecState,
    (((processMeshAttributesLoop store s uids).1).accessors.length
      = s.accessors.length + ((uids.filter fun u =>
          decide ((store u).count ≠ 0 ∧ s.cacheAttributes.lookup u = none)).toFinset).card) ∧
    (∀ u a, s.cacheAttributes.lookup u = some a →
      ((processMeshAttributesLoop store s uids).1).cacheAttributes.lookup u = some a) ∧
    (∀ u, (store u).count = 0 → s.cacheAttributes.lookup u = none →
      ((processMeshAttributesLoop store s uids).1).cacheAttributes.lookup u = none) ∧
    (∀ p, p < uids.length →
      ((processMeshAttributesLoop store s uids).2).getD p none
        = ((processMeshAttributesLoop store s uids).1).cacheAttributes.lookup
            (uids.getD p 0)) := by
  induction uids with
  | nil =>
    intro s
    refine ⟨by simp [processMeshAttributesLoop], ?_, ?_, ?_⟩
    · intro u a h
      simpa [processMeshAttributesLoop] using h
    · intro u h1 h2
      simpa [processMeshAttributesLoop] using h2
    · intro p hp
      simp at hp
  | cons u rest ih =>
    intro s
    cases hlook : s.cacheAttributes.lookup u with
    | some idx =>
      have hrec := ih s
      have hP : (decide ((store u).count ≠ 0 ∧ s.cacheAttributes.lookup u = none)) = false := by
        simp [hlook]
      refine ⟨?_, ?_, ?_, ?_⟩
      · have h1 := hrec.1
        simp only [processMeshAttributesLoop, hlook, List.filter_cons]
        simpa using h1
      · intro v a hv
        simp only [processMeshAttributesLoop, hlook]
        exact hrec.2.1 v a hv
      · intro v h1 h2
        simp only [processMeshAttributesLoop, hlook]
        exact hrec.2.2.1 v h1 h2
      · intro p hp
        simp only [processMeshAttributesLoop, hlook]
        cases p with
        | zero =>
          simp only [List.getD_cons_zero]
          exact (hrec.2.1 u idx hlook).symm
        | succ p0 =>
          simp only [List.getD_cons_succ]
          exact hrec.2.2.2 p0 (by simpa using hp)
    | none =>
      have heff := processAccessor_effects s (store u) (some false)
      by_cases hc : (store u).count = 0
      · have hpa : (processAccessor s (store u) (some false) none none) = (s, none) := by
          simp [processAccessor, hc]
        have hrec := ih s
        have hP : (decide ((store u).count ≠ 0 ∧ s.cacheAttributes.lookup u = none))
            = false := by
          simp [hc]
        refine ⟨?_, ?_, ?_, ?_⟩
        · have h1 := hrec.1
          simp only [processMeshAttributesLoop, hlook, hpa, List.filter_cons]
          simpa [hc] using h1
        · intro v a hv
          simp only [processMeshAttributesLoop, hlook, hpa]
          exact hrec.2.1 v a hv
        · intro v h1 h2
          simp only [processMeshAttributesLoop, hlook, hpa]
          exact hrec.2.2.1 v h1 h2
        · intro p hp
          simp only [processMeshAttributesLoop, hlook, hpa]
          cases p with
          | zero =>
            simp only [List.getD_cons_zero]
            exact (hrec.2.2.1 u hc hlook).symm
          | succ p0 =>
            simp only [List.getD_cons_succ]
            exact hrec.2.2.2 p0 (by simpa using hp)
      · -- fresh uid with data: an accessor is created and cached
        have hpa2 : (processAccessor s (store u) (some false) none none).2
            = some s.accessors.length := by
          rw [heff.2.2, if_neg hc]
        have hs2cache :
            ({ (processAccessor s (store u) (some false) none none).1 with
                cacheAttributes :=
                  (u, s.accessors.length) ::
                    ((processAccessor s (store u) (some false) none none).1).cacheAttributes }
              : CodecState).cacheAttributes
            = (u, s.accessors.length) :: s.cacheAttributes := by
          simp [heff.1]
        refine ⟨?_, ?_, ?_, ?_⟩
        · have h1 := (ih { (processAccessor s (store u) (some false) none none).1 with
              cacheAttributes := (u, s.accessors.length) ::
                ((processAccessor s (store u) (some false) none none).1).cacheAttributes }).1
          have hone : ({ (processAccessor s (store u) (some false) none none).1 with
              cacheAttributes := (u, s.accessors.length) ::
                ((processAccessor s (store u) (some false) none none).1).cacheAttributes }
              : CodecState).accessors.length = s.accessors.length + 1 := by
            have h2 := heff.2.1
            rw [if_neg hc] at h2
            simpa using h2
          have hfin : ((rest.filter fun v =>
                decide ((store v).count ≠ 0 ∧
                  ({ (processAccessor s (store u) (some false) none none).1 with
                    cacheAttributes := (u, s.accessors.length) ::
                      ((processAccessor s (store u) (some false) none
                        none).1).cacheAttributes }
                    : CodecState).cacheAttributes.lookup v = none)).toFinset)
              = ((rest.filter fun v =>
                  decide ((store v).count ≠ 0 ∧
                    s.cacheAttributes.lookup v = none)).toFinset).erase u := by
            ext x
            simp only [List.mem_toFinset, List.mem_filter, Finset.mem_erase,
              decide_eq_true_eq, heff.1]
            constructor
            · rintro ⟨hx, hcnt, hlk⟩
              have hxu : ¬x = u := by
                intro hxu
                rw [hxu, lookup_cons_self] at hlk
                cases hlk
              rw [lookup_cons_ne _ _ _ _ hxu] at hlk
              exact ⟨hxu, hx, hcnt, hlk⟩
            · rintro ⟨hxu, ⟨hx, hcnt, hlk⟩⟩
              refine ⟨hx, hcnt, ?_⟩
              rw [lookup_cons_ne _ _ _ _ hxu]
              exact hlk
          simp only [processMeshAttributesLoop, hlook, hpa2]
          rw [h1, hone, hfin]
          have hsplit : (u :: rest).filter (fun v =>
                decide ((store v).count ≠ 0 ∧ s.cacheAttributes.lookup v = none))
              = u :: rest.filter (fun v =>
                decide ((store v).count ≠ 0 ∧ s.cacheAttributes.lookup v = none)) := by
            rw [List.filter_cons]
            simp [hc, hlook]
          rw [hsplit, List.toFinset_cons, insert_card_erase]
          omega
        · intro v a hv
          have hxu : ¬v = u := by
            intro h
            rw [h, hlook] at hv
            cases hv
          have hs2lk : ({ (processAccessor s (store u) (some false) none none).1 with
              cacheAttributes := (u, s.accessors.length) ::
                ((processAccessor s (store u) (some false) none none).1).cacheAttributes }
              : CodecState).cacheAttributes.lookup v = some a := by
            rw [hs2cache, lookup_cons_ne _ _ _ _ hxu]
            exact hv
          simp only [processMeshAttributesLoop, hlook, hpa2]
          exact (ih _).2.1 v a hs2lk
        · intro v hv0 hvnone
          have hxu : ¬v = u := by
            intro h
            rw [h] at hv0
            exact hc hv0
          have hs2lk : ({ (processAccessor s (store u) (some false) none none).1 with
              cacheAttributes := (u, s.accessors.length) ::
                ((processAccessor s (store u) (some false) none none).1).cacheAttributes }
              : CodecState).cacheAttributes.lookup v = none := by
            rw [hs2cache, lookup_cons_ne _ _ _ _ hxu]
            exact hvnone
          simp only [processMeshAttributesLoop, hlook, hpa2]
          exact (ih _).2.2.1 v hv0 hs2lk
        · intro p hp
          simp only [processMeshAttributesLoop, hlook, hpa2]
          cases p with
          | zero =>
            simp only [List.getD_cons_zero]
            have hs2self : ({ (processAccessor s (store u) (some false) none none).1 with
                cacheAttributes := (u, s.accessors.length) ::
                  ((processAccessor s (store u) (some false) none none).1).cacheAttributes }
                : CodecState).cacheAttributes.lookup u = some s.accessors.length := by
              rw [hs2cache]
              exact lookup_cons_self _ _ _
            exact ((ih _).2.1 u s.accessors.length hs2self).symm
          | succ p0 =>
            simp only [List.getD_cons_succ]
            exact (ih _).2.2.2 p0 (by simpa using hp)

/-- Claim C7: Within a single `write()` invocation (the attribute cache starts
empty), a geometry attribute referenced any number of times by UID produces
exactly one accessor: the accessor count grows by the number of distinct
referenced UIDs with data, and any two references to the same UID resolve to
the same accessor index (the first emission caches the index, later
references reuse it). -/
theorem processMesh_attribute_accessor_dedup (store : Nat → BufferAttribute)
    (s : CodecState) (uids : List Nat) (hcache : s.cacheAttributes = []) :
    (((processMeshAttributesLoop store s uids).1).accessors.length
      = s.accessors.length
        + ((uids.filter fun u => decide ((store u).count ≠ 0)).toFinset).card) ∧
    (∀ p q, p < uids.length → q < uids.length → uids.getD p 0 = uids.getD q 0 →
      ((processMeshAttributesLoop store s uids).2).getD p none
        = ((processMeshAttributesLoop store s uids).2).getD q none) := by
  have h := processMeshAttributesLoop_spec store uids s
  constructor
  · rw [h.1]
    have heq : (uids.filter fun u =>
          decide ((store u).count ≠ 0 ∧ s.cacheAttributes.lookup u = none))
        = uids.filter fun u => decide ((store u).count ≠ 0) := by
      apply List.filter_congr
      intro v hv
      simp [hcache, List.lookup]
    rw [heq]
  · intro p q hp hq he
    rw [h.2.2.2 p hp, h.2.2.2 q hq, he]

theorem processMesh_attribute_accessor_dedup_witness :
    (initialCodecState.cacheAttributes = ([] : List (Nat × Nat))) ∧
    ((((processMeshAttributesLoop storeCexC7 initialCodecState [7, 7]).1).accessors.length
        = initialCodecState.accessors.length +
          ((([7, 7] : List Nat).filter fun u =>
            decide ((storeCexC7 u).count ≠ 0)).toFinset).card) ∧
     (∀ p q, p < ([7, 7] : List Nat).length → q < ([7, 7] : List Nat).length →
        ([7, 7] : List Nat).getD p 0 = ([7, 7] : List Nat).getD q 0 →
        ((processMeshAttributesLoop storeCexC7 initialCodecState [7, 7]).2).getD p none
          = ((processMeshAttributesLoop storeCexC7 initialCodecState [7, 7]).2).getD q none)) :=
  ⟨rfl, processMesh_attribute_accessor_dedup storeCexC7 initialCodecState [7, 7] rfl⟩

theorem getD_append_left {α : Type} (l1 l2 : List α) (n : Nat) (d : α) (h : n < l1.length) :
    (l1 ++ l2).getD n d = l1.getD n d := by
  rw [List.getD_eq_getElem?_getD, List.getD_eq_getElem?_getD, List.getElem?_append, if_pos h]

theorem getD_append_right {α : Type} (l1 l2 : List α) (n : Nat) (d : α)
    (h : l1.length ≤ n) :
    (l1 ++ l2).getD n d = l2.getD (n - l1.length) d := by
  rw [List.getD_eq_getElem?_getD, List.getD_eq_getElem?_getD, List.getElem?_append,
    if_neg (by omega)]

theorem getD_take_of_lt {α : Type} (l : List α) (n m : Nat) (d : α) (h : m < n) :
    (l.take n).getD m d = l.getD m d := by
  rw [List.getD_eq_getElem?_getD, List.getD_eq_getElem?_getD, List.getElem?_take, if_pos h]

/-- When the middle loop of `insertKeyframe` actually inserts (it returns an
index and the track grew), the insertion happened strictly between two
existing keyframes, past the tolerance check against the preceding one. -/
theorem insertKeyframeLoopGo_insert_spec (track : KeyframeTrack) (time tol : ℚ) (vs : Nat)
    (fuel : Nat) :
    ∀ (i : Nat) (track2 : KeyframeTrack) (idx : Nat),
    insertKeyframeLoopGo track time tol vs fuel i = (track2, some idx) →
    track2.times.length = track.times.length + 1 →
    ∃ j, idx = j + 1 ∧ j + 1 < track.times.length ∧
      track2.times = track.times.take (j + 1) ++ time :: track.times.drop (j + 1) ∧
      tol ≤ |track.times.getD j 0 - time| ∧ track.times.getD j 0 < time := by
  induction fuel with
  | zero =>
    intro i track2 idx hrun hgrow
    rw [insertKeyframeLoopGo] at hrun
    injection hrun with hA hB
    cases hB
  | succ fuel ih =>
    intro i track2 idx hrun hgrow
    rw [insertKeyframeLoopGo] at hrun
    by_cases h1 : i < track.times.length
    · rw [if_pos h1] at hrun
      by_cases h2 : |track.times.getD i 0 - time| < tol
      · rw [if_pos h2] at hrun
        injection hrun with hA hB
        rw [← hA] at hgrow
        omega
      · rw [if_neg h2] at hrun
        by_cases h3 : track.times.getD i 0 < time ∧ i + 1 < track.times.length ∧
            time < track.times.getD (i + 1) 0
        · rw [if_pos h3] at hrun
          injection hrun with hA hB
          injection hB with hB
          refine ⟨i, hB.symm, h3.2.1, ?_, le_of_not_lt h2, h3.1⟩
          rw [← hA]
        · rw [if_neg h3] at hrun
          exact ih (i + 1) track2 idx hrun hgrow
    · rw [if_neg h1] at hrun
      injection hrun with hA hB
      cases hB

/-- Source `insertKeyframeLoop` version of the insertion spec. -/
theorem insertKeyframeLoop_insert_spec (track : KeyframeTrack) (time tol : ℚ) (vs : Nat)
    (i : Nat) (track2 : KeyframeTrack) (idx : Nat)
    (hrun : insertKeyframeLoop track time tol vs i = (track2, some idx))
    (hgrow : track2.times.length = track.times.length + 1) :
    ∃ j, idx = j + 1 ∧ j + 1 < track.times.length ∧
      track2.times = track.times.take (j + 1) ++ time :: track.times.drop (j + 1) ∧
      tol ≤ |track.times.getD j 0 - time| ∧ track.times.getD j 0 < time :=
  insertKeyframeLoopGo_insert_spec track time tol vs (track.times.length + 1 - i) i
    track2 idx hrun hgrow

/-- Pair-level form of the insertion-separation property of
`insertKeyframe`. -/
theorem insertKeyframe_pair_separation (track : KeyframeTrack) (time : ℚ)
    (track2 : KeyframeTrack) (idx : Nat)
    (hrun : insertKeyframe track time = (track2, some idx))
    (hgrow : track2.times.length = track.times.length + 1) :
    track2.times.getD idx 0 = time ∧
    (0 < idx → 1 / 1000 ≤ track2.times.getD idx 0 - track2.times.getD (idx - 1) 0) ∧
    (idx = 0 → 1 < track2.times.length →
      1 / 1000 ≤ track2.times.getD 1 0 - track2.times.getD 0 0) := by
  simp only [insertKeyframe] at hrun
  by_cases h0 : track.times.length = 0
  · rw [if_pos h0] at hrun
    injection hrun with hA hB
    injection hB with hB
    rw [← hB, ← hA]
    refine ⟨rfl, by omega, ?_⟩
    intro _ hlen
    simp at hlen
  · rw [if_neg h0] at hrun
    by_cases hb : time < track.times.getD 0 0
    · rw [if_pos hb] at hrun
      by_cases htol : |track.times.getD 0 0 - time| < 1 / 1000
      · rw [if_pos htol] at hrun
        injection hrun with hA hB
        rw [← hA] at hgrow
        omega
      · rw [if_neg htol] at hrun
        injection hrun with hA hB
        injection hB with hB
        rw [← hB, ← hA]
        refine ⟨rfl, by omega, ?_⟩
        intro _ _
        have habs : |track.times.getD 0 0 - time| = track.times.getD 0 0 - time := by
          rw [abs_of_pos]
          linarith
        have hge := le_of_not_lt htol
        rw [habs] at hge
        simpa using hge
    · rw [if_neg hb] at hrun
      by_cases hl : track.times.getD (track.times.length - 1) 0 < time
      · rw [if_pos hl] at hrun
        by_cases htol : |track.times.getD (track.times.length - 1) 0 - time| < 1 / 1000
        · rw [if_pos htol] at hrun
          injection hrun with hA hB
          rw [← hA] at hgrow
          omega
        · rw [if_neg htol] at hrun
          injection hrun with hA hB
          injection hB with hB
          have habs : |track.times.getD (track.times.length - 1) 0 - time|
              = time - track.times.getD (track.times.length - 1) 0 := by
            rw [abs_of_neg]
            · ring
            · linarith
          have hge := le_of_not_lt htol
          rw [habs] at hge
          rw [← hB, ← hA]
          have hfront : ((track.times ++ [time]).getD track.times.length 0) = time := by
            rw [getD_append_right _ _ _ _ (le_refl _)]
            simp
          refine ⟨?_, ?_, ?_⟩
          · show (track.times ++ [time]).getD track.times.length 0 = time
            exact hfront
          · intro _
            show 1 / 1000 ≤ (track.times ++ [time]).getD track.times.length 0
              - (track.times ++ [time]).getD (track.times.length - 1) 0
            rw [hfront, getD_append_left _ _ _ _ (by omega)]
            exact hge
          · intro hz _
            exact absurd hz (by omega)
      · rw [if_neg hl] at hrun
        obtain ⟨j, hje, hjlt, htimes, htolj, hltj⟩ :=
          insertKeyframeLoop_insert_spec track time (1 / 1000) track.getValueSize 0
            track2 idx hrun hgrow
        have htake : (track.times.take (j + 1)).length = j + 1 := by
          rw [List.length_take]
          omega
        have habs : |track.times.getD j 0 - time| = time - track.times.getD j 0 := by
          rw [abs_of_neg]
          · ring
          · linarith
        rw [habs] at htolj
        subst hje
        have hidx1 : track2.times.getD (j + 1) 0 = time := by
          rw [htimes, getD_append_right _ _ _ _ (le_of_eq htake), htake]
          simp
        have hidx0 : track2.times.getD j 0 = track.times.getD j 0 := by
          rw [htimes, getD_append_left _ _ _ _ (by rw [htake]; omega),
            getD_take_of_lt _ _ _ _ (by omega)]
        refine ⟨hidx1, ?_, ?_⟩
        · intro _
          rw [show j + 1 - 1 = j from rfl, hidx1, hidx0]
          exact htolj
        · intro hz
          exact absurd hz (by omega)

/-- Claim C6 (amended): Whenever `insertKeyframe` actually inserts a new
keyframe — the returned track is one keyframe longer — the new time sits at
the returned index, at least the 0.001-second tolerance after its predecessor
(and at least the tolerance before its successor when it is inserted in front
of all existing keyframes).  The claim's global bound — adjacent times of
every merged track differing by more than 0.001 — does not hold: the merged
track is seeded by cloning the source track's own times, and a middle
insertion tolerance-checks only the preceding keyframe, never the following
one (see the counterexample). -/
theorem insertKeyframe_separation (track : KeyframeTrack) (time : ℚ) (idx : Nat)
    (hrun : (insertKeyframe track time).2 = some idx)
    (hgrow : ((insertKeyframe track time).1).times.length = track.times.length + 1) :
    ((insertKeyframe track time).1).times.getD idx 0 = time ∧
    (0 < idx → 1 / 1000 ≤ ((insertKeyframe track time).1).times.getD idx 0
      - ((insertKeyframe track time).1).times.getD (idx - 1) 0) ∧
    (idx = 0 → 1 < ((insertKeyframe track time).1).times.length →
      1 / 1000 ≤ ((insertKeyframe track time).1).times.getD 1 0
        - ((insertKeyframe track time).1).times.getD 0 0) :=
  insertKeyframe_pair_separation track time ((insertKeyframe track time).1) idx
    (Prod.ext rfl hrun) hgrow

theorem insertKeyframe_separation_witness :
    ((insertKeyframe ⟨"t", [0, 1], [5, 6], .linear⟩ (1 / 2)).2 = some 1 ∧
      ((insertKeyframe ⟨"t", [0, 1], [5, 6], .linear⟩ (1 / 2)).1).times.length
        = (⟨"t", [0, 1], [5, 6], .linear⟩ : KeyframeTrack).times.length + 1) ∧
    (((insertKeyframe ⟨"t", [0, 1], [5, 6], .linear⟩ (1 / 2)).1).times.getD 1 0 = 1 / 2 ∧
     (0 < 1 → 1 / 1000 ≤
        ((insertKeyframe ⟨"t", [0, 1], [5, 6], .linear⟩ (1 / 2)).1).times.getD 1 0
          - ((insertKeyframe ⟨"t", [0, 1], [5, 6], .linear⟩ (1 / 2)).1).times.getD
              (1 - 1) 0) ∧
     (1 = 0 →
        1 < ((insertKeyframe ⟨"t", [0, 1], [5, 6], .linear⟩ (1 / 2)).1).times.length →
        1 / 1000 ≤
          ((insertKeyframe ⟨"t", [0, 1], [5, 6], .linear⟩ (1 / 2)).1).times.getD 1 0
            - ((insertKeyframe ⟨"t", [0, 1], [5, 6], .linear⟩ (1 / 2)).1).times.getD 0 0)) :=
  ⟨⟨by norm_num [insertKeyframe, insertKeyframeLoop, insertKeyframeLoopGo,
      KeyframeTrack.getValueSize, abs_lt],
    by norm_num [insertKeyframe, insertKeyframeLoop, insertKeyframeLoopGo,
      KeyframeTrack.getValueSize, abs_lt]⟩,
   insertKeyframe_separation ⟨"t", [0, 1], [5, 6], .linear⟩ (1 / 2) 1
     (by norm_num [insertKeyframe, insertKeyframeLoop, insertKeyframeLoopGo,
       KeyframeTrack.getValueSize, abs_lt])
     (by norm_num [insertKeyframe, insertKeyframeLoop, insertKeyframeLoopGo,
       KeyframeTrack.getValueSize, abs_lt])⟩

/-- Claim C6 counterexample: `mergeMorphTargetTracks` clones the first per-node
morph track's times verbatim, so the returned clip's merged track keeps the
adjacent keyframes 0.0005 s apart, violating the claimed `> 0.001` gap. -/
theorem mergeMorphTargetTracks_gap_counterexample :
    mergeMorphTargetTracks parseCexC6 findNodeCexC6 clipCexC6
      = .ok ⟨"clip", [⟨"m.morphTargetInfluences", [0, 1 / 2000], [1, 1], .linear⟩]⟩ ∧
    ¬ KeyframeGapsExceedTolerance [0, 1 / 2000] := by
  constructor
  · rfl
  · intro hch
    have h1 := (List.chain'_cons.mp hch).1
    norm_num at h1
